import Mathlib

/-!
Verification of the arpwatch Prometheus exporter (`arpwatch_exporter.go`).

The development shallowly embeds the exporter's refresh cycle
(`readArpwatchData`) and its HTTP Basic-Auth middleware (`basicAuth`).
Machine integers are modelled as `Int` with explicit int64 range checks;
the float64 gauge values are modelled by `float64OfInt`, the exact
round-to-nearest-even conversion of an int64 to an IEEE-754 double
(which is integer-valued on the whole int64 range, so it is an
`Int → Int` function). File I/O is modelled by the `FileRead` type:
either the `os.Open` call fails, or the scanner yields a list of lines
followed by a possible `scanner.Err()` I/O error.
-/

/-- A device-gauge key: the (mac, ip, hostname) label triple of
`arpwatch_device_last_seen_timestamp`. -/
abbrev LabelKey := String × String × String

/-- The labelled gauge vector, as an association list from label triples to
stored (float64-valued, hence `Int` here) gauge values. -/
abbrev GaugeVec := List (LabelKey × Int)

/-- `WithLabelValues(...).Set(v)`: upsert a child gauge of the vector. -/
def gaugeSet : GaugeVec → LabelKey → Int → GaugeVec
  | [], k, v => [(k, v)]
  | (k', v') :: m, k, v =>
    if k' = k then (k, v) :: m else (k', v') :: gaugeSet m k v

/-- Look up the value of the child gauge with the given labels, if any. -/
def gLookup : GaugeVec → LabelKey → Option Int
  | [], _ => none
  | (k', v) :: m, k => if k' = k then some v else gLookup m k

/-- The four registered instruments of the exporter.  `lastSeen` is the
`arpwatch_device_last_seen_timestamp` gauge vector, `readErrors` the
`arpwatch_exporter_read_errors_total` counter, `lastReadTime` the
`arpwatch_exporter_last_read_timestamp` gauge and `devicesTracked` the
`arpwatch_devices_tracked_total` gauge. -/
structure MetricsState where
  lastSeen : GaugeVec
  readErrors : Nat
  lastReadTime : Int
  devicesTracked : Int
  deriving DecidableEq

/-- The registry at process start: empty gauge vector, all scalars zero. -/
def initialState : MetricsState := ⟨[], 0, 0, 0⟩

/-- Go `unicode.IsSpace`, the separator predicate of `strings.Fields`:
the Unicode White_Space code points, namely U+0009 - U+000D (tab, LF,
vertical tab, form feed, CR), space, U+0085 (NEL), U+00A0 (no-break
space), U+1680, U+2000 - U+200A, U+2028, U+2029, U+202F, U+205F and
U+3000. -/
def isSpaceChar (c : Char) : Bool :=
  let n := c.toNat
  (0x9 ≤ n ∧ n ≤ 0xD) ∨ n = 0x20 ∨ n = 0x85 ∨ n = 0xA0
  ∨ n = 0x1680 ∨ (0x2000 ≤ n ∧ n ≤ 0x200A)
  ∨ n = 0x2028 ∨ n = 0x2029 ∨ n = 0x202F ∨ n = 0x205F ∨ n = 0x3000

/-- Worker for `fields`: split a character list on runs of whitespace,
accumulating the current (reversed) token. -/
def fieldsAux : List Char → List Char → List String
  | [], cur => if cur = [] then [] else [String.mk cur.reverse]
  | c :: cs, cur =>
    if isSpaceChar c then
      if cur = [] then fieldsAux cs []
      else String.mk cur.reverse :: fieldsAux cs []
    else fieldsAux cs (c :: cur)

/-- Go `strings.Fields`: split on runs of whitespace, dropping empty pieces. -/
def fields (s : String) : List String := fieldsAux s.data []

/-- Fold a digit list into the `Nat` it denotes in base 10. -/
def digitsToNat (cs : List Char) : Nat :=
  cs.foldl (fun a c => a * 10 + (c.toNat - 48)) 0

/-- The digit part of `parseInt64`, after the optional sign: one or more
base-10 digits whose signed value fits in int64. -/
def parseInt64Digits (sign : Int) (ds : List Char) : Option Int :=
  if ds = [] then none
  else if ds.all Char.isDigit then
    let v : Int := sign * (digitsToNat ds : Int)
    if -(2 ^ 63) ≤ v ∧ v ≤ 2 ^ 63 - 1 then some v else none
  else none

/-- Go `strconv.ParseInt(s, 10, 64)`: optional sign, then one or more
base-10 digits, value within the signed 64-bit range; anything else
(empty string, stray characters, overflow) is an error, modelled `none`. -/
def parseInt64 (s : String) : Option Int :=
  match s.data with
  | '+' :: ds => parseInt64Digits 1 ds
  | '-' :: ds => parseInt64Digits (-1) ds
  | ds => parseInt64Digits 1 ds

/-- The test `line == "" || strings.HasPrefix(line, "#")` guarding the
skip of empty and comment lines. -/
def isCommentOrEmpty (line : String) : Bool :=
  match line.data with
  | [] => true
  | c :: _ => c = '#'

/-- One valid device observation parsed from a line. -/
structure ArpRecord where
  mac : String
  ip : String
  timestamp : Int
  hostname : String
  deriving DecidableEq

/-- The label triple under which a record is published. -/
def recKey (r : ArpRecord) : LabelKey := (r.mac, r.ip, r.hostname)

/-- The per-line logic of the scan loop: skip empty and comment lines,
split into fields, require at least 3 fields and a parseable base-10
int64 third field; the fourth field, when present, is the hostname,
otherwise the hostname is the empty string.  `none` means the line
contributes nothing (it is logged and skipped in the source). -/
def parseLine (line : String) : Option ArpRecord :=
  if isCommentOrEmpty line then none
  else
    match fields line with
    | mac :: ip :: tstr :: rest =>
      match parseInt64 tstr with
      | some ts => some ⟨mac, ip, ts, rest.headD ""⟩
      | none => none
    | _ => none

/-- Number of halvings needed to bring `m` strictly below `2 ^ 53`
(with enough fuel); this is the exponent of the ulp of the double
nearest to `m` when `m` exceeds `2 ^ 53`. -/
def shiftFor : Nat → Nat → Nat
  | 0, _ => 0
  | fuel + 1, m => if m < 2 ^ 53 then 0 else shiftFor fuel (m / 2) + 1

/-- Go's `float64(x)` conversion of an int64 `x`, as an exact integer:
round-to-nearest, ties to even, on a 53-bit significand.  Magnitudes up
to `2 ^ 53` are represented exactly; larger int64 magnitudes are rounded
to the nearest multiple of the appropriate power of two. -/
def float64OfInt (n : Int) : Int :=
  if n.natAbs ≤ 2 ^ 53 then n
  else
    let m := n.natAbs
    let shift := shiftFor 64 m
    let q := m / 2 ^ shift
    let r := m % 2 ^ shift
    let q2 := if 2 ^ shift < r * 2 ∨ (r * 2 = 2 ^ shift ∧ q % 2 = 1) then q + 1 else q
    if 0 ≤ n then ((q2 * 2 ^ shift : Nat) : Int) else -((q2 * 2 ^ shift : Nat) : Int)

/-- One iteration of the scan loop on the (gauge-vector, deviceCount)
pair: a parseable line publishes its record and increments the count;
any other line leaves both untouched. -/
def applyLine (acc : GaugeVec × Nat) (line : String) : GaugeVec × Nat :=
  match parseLine line with
  | none => acc
  | some r => (gaugeSet acc.1 (recKey r) (float64OfInt r.timestamp), acc.2 + 1)

/-- Outcome of one attempt to read the file: `openError` when `os.Open`
fails; `scanned lines scanErr` when the scanner yields `lines` (the lines
obtained before any failure) and `scanner.Err()` reports `scanErr`. -/
inductive FileRead where
  | openError : FileRead
  | scanned (lines : List String) (scanErr : Bool) : FileRead
  deriving DecidableEq

/-- `readArpwatchData`: one refresh cycle.  On open failure the read-error
counter is bumped and nothing else changes.  Otherwise the device gauge
vector is reset and rebuilt from the scanned lines; a scan error bumps
the counter and leaves the two summary gauges alone, while success sets
`devicesTracked` to the count of valid lines and `lastReadTime` to the
current wall-clock time `now` (`time.Now().Unix()`). -/
def readArpwatchData : FileRead → Int → MetricsState → MetricsState
  | .openError, _, s => { s with readErrors := s.readErrors + 1 }
  | .scanned lines true, _, s =>
    { s with
      lastSeen := (lines.foldl applyLine ([], 0)).1
      readErrors := s.readErrors + 1 }
  | .scanned lines false, now, s =>
    { s with
      lastSeen := (lines.foldl applyLine ([], 0)).1
      devicesTracked := float64OfInt ((lines.foldl applyLine ([], 0)).2 : Int)
      lastReadTime := float64OfInt now }

/-- Number of lines of the file that parse into a valid record. -/
def countValid : List String → Nat
  | [] => 0
  | l :: ls => (if (parseLine l).isSome then 1 else 0) + countValid ls

/-- Whether a line parses into a record published under key `k`. -/
def lineHasKey (k : LabelKey) (l : String) : Bool :=
  match parseLine l with
  | some r => decide (recKey r = k)
  | none => false

/-- The Basic-Auth configuration: `-auth.username` and `-auth.password`. -/
structure AuthConfig where
  username : String
  password : String
  deriving DecidableEq

/-- What the middleware does with a request: hand it to the wrapped
handler, or answer itself with a status code and a `WWW-Authenticate`
response header. -/
inductive AuthDecision where
  | pass : AuthDecision
  | reject (status : Nat) (wwwAuthenticate : String) : AuthDecision
  deriving DecidableEq

/-- `subtle.ConstantTimeCompare` on the byte slices of two strings:
1 when they are equal, 0 otherwise (constant-timeness is a timing
property with no functional content). -/
def constantTimeCompare (a b : String) : Nat :=
  if a = b then 1 else 0

/-- The `unauthorized` helper: 401 with the Basic challenge header. -/
def unauthorizedResponse : AuthDecision :=
  .reject 401 "Basic realm=\"Arpwatch Exporter\""

/-- The `basicAuth` middleware.  `creds` is the outcome of
`r.BasicAuth()`: `none` when no valid Basic-Auth header is present,
`some (u, p)` for presented credentials. -/
def basicAuth (cfg : AuthConfig) (creds : Option (String × String)) : AuthDecision :=
  if cfg.username = "" ∨ cfg.password = "" then .pass
  else
    match creds with
    | none => unauthorizedResponse
    | some (u, p) =>
      if constantTimeCompare u cfg.username = 1 ∧ constantTimeCompare p cfg.password = 1 then
        .pass
      else unauthorizedResponse

/-- C1: when opening the source file fails, the refresh cycle increments
the read-error counter by exactly one and leaves the device-gauge
snapshot, the last-read-timestamp gauge and the devices-tracked gauge
completely unchanged. -/
theorem openError_increments_counter_only (now : Int) (s : MetricsState) :
    (readArpwatchData .openError now s).readErrors = s.readErrors + 1
    ∧ (readArpwatchData .openError now s).lastSeen = s.lastSeen
    ∧ (readArpwatchData .openError now s).lastReadTime = s.lastReadTime
    ∧ (readArpwatchData .openError now s).devicesTracked = s.devicesTracked :=
  ⟨rfl, rfl, rfl, rfl⟩

/-- C5: when the file opens but the scan fails mid-stream, the read-error
counter is incremented, the devices-tracked and last-read-timestamp
gauges keep their prior values, and the device snapshot is the one
rebuilt from scratch out of exactly the lines scanned before the
error. -/
theorem scanError_partial_state (lines : List String) (now : Int) (s : MetricsState) :
    (readArpwatchData (.scanned lines true) now s).readErrors = s.readErrors + 1
    ∧ (readArpwatchData (.scanned lines true) now s).devicesTracked = s.devicesTracked
    ∧ (readArpwatchData (.scanned lines true) now s).lastReadTime = s.lastReadTime
    ∧ (readArpwatchData (.scanned lines true) now s).lastSeen
        = (lines.foldl applyLine ([], 0)).1 :=
  ⟨rfl, rfl, rfl, rfl⟩

/-- C8: two consecutive error-free refresh cycles on the same file
content leave every instrument after the second cycle equal to its value
after the first, except the last-read-timestamp gauge, which carries the
second cycle's wall-clock time.  Since the exposition output is a
function of the instruments, the outputs agree except on that gauge. -/
theorem refresh_idempotent (lines : List String) (now1 now2 : Int) (s : MetricsState) :
    (readArpwatchData (.scanned lines false) now2
        (readArpwatchData (.scanned lines false) now1 s)).lastSeen
      = (readArpwatchData (.scanned lines false) now1 s).lastSeen
    ∧ (readArpwatchData (.scanned lines false) now2
        (readArpwatchData (.scanned lines false) now1 s)).readErrors
      = (readArpwatchData (.scanned lines false) now1 s).readErrors
    ∧ (readArpwatchData (.scanned lines false) now2
        (readArpwatchData (.scanned lines false) now1 s)).devicesTracked
      = (readArpwatchData (.scanned lines false) now1 s).devicesTracked
    ∧ (readArpwatchData (.scanned lines false) now2
        (readArpwatchData (.scanned lines false) now1 s)).lastReadTime
      = float64OfInt now2 :=
  ⟨rfl, rfl, rfl, rfl⟩

/-- Setting a child gauge makes its value readable under the same key. -/
theorem gLookup_gaugeSet_self (m : GaugeVec) (k : LabelKey) (v : Int) :
    gLookup (gaugeSet m k v) k = some v := by
  induction m with
  | nil => simp [gaugeSet, gLookup]
  | cons p m ih =>
    obtain ⟨k', v'⟩ := p
    by_cases h : k' = k
    · simp [gaugeSet, gLookup, h]
    · simp [gaugeSet, gLookup, h, ih]

/-- Setting a child gauge leaves every other key's value alone. -/
theorem gLookup_gaugeSet_ne (m : GaugeVec) (k k' : LabelKey) (v : Int)
    (h : k' ≠ k) : gLookup (gaugeSet m k v) k' = gLookup m k' := by
  have hk : ¬k = k' := fun hh => h hh.symm
  induction m with
  | nil => simp [gaugeSet, gLookup, hk]
  | cons p m ih =>
    obtain ⟨k0, v0⟩ := p
    by_cases h0 : k0 = k
    · subst h0
      simp [gaugeSet, gLookup, hk]
    · simp [gaugeSet, gLookup, h0, ih]

/-- The count component of the scan fold adds the number of valid lines. -/
theorem foldl_applyLine_count (lines : List String) :
    ∀ acc : GaugeVec × Nat,
      (lines.foldl applyLine acc).2 = acc.2 + countValid lines := by
  induction lines with
  | nil => intro acc; simp [countValid]
  | cons l ls ih =>
    intro acc
    rw [List.foldl_cons, ih]
    cases hp : parseLine l with
    | none => simp [applyLine, hp, countValid]
    | some r =>
      simp [applyLine, hp, countValid]
      omega

/-- Lines that publish no record under key `k` do not disturb the child
gauge at `k`. -/
theorem foldl_applyLine_lookup_of_noKey (k : LabelKey) (lines : List String)
    (h : ∀ l ∈ lines, lineHasKey k l = false) :
    ∀ acc : GaugeVec × Nat,
      gLookup (lines.foldl applyLine acc).1 k = gLookup acc.1 k := by
  induction lines with
  | nil => intro acc; rfl
  | cons l ls ih =>
    intro acc
    have hl := h l (List.mem_cons_self l ls)
    have hls : ∀ l' ∈ ls, lineHasKey k l' = false :=
      fun l' hm => h l' (List.mem_cons_of_mem l hm)
    rw [List.foldl_cons, ih hls]
    cases hp : parseLine l with
    | none => simp [applyLine, hp]
    | some r =>
      have hk : recKey r ≠ k := by
        intro he
        simp [lineHasKey, hp, he] at hl
      simp [applyLine, hp, gLookup_gaugeSet_ne _ _ _ _ (Ne.symm hk)]

/-- A child gauge is present after the scan fold exactly when it was
present before or some scanned line publishes under its key. -/
theorem foldl_applyLine_lookup_isSome (k : LabelKey) (lines : List String) :
    ∀ acc : GaugeVec × Nat,
      (gLookup (lines.foldl applyLine acc).1 k).isSome
        = ((gLookup acc.1 k).isSome || lines.any (lineHasKey k)) := by
  induction lines with
  | nil => intro acc; simp
  | cons l ls ih =>
    intro acc
    rw [List.foldl_cons, ih]
    cases hp : parseLine l with
    | none => simp [applyLine, hp, lineHasKey, List.any_cons]
    | some r =>
      by_cases hk : recKey r = k
      · simp [applyLine, hp, lineHasKey, List.any_cons, hk,
          gLookup_gaugeSet_self]
      · simp [applyLine, hp, lineHasKey, List.any_cons, hk,
          gLookup_gaugeSet_ne _ _ _ _ (Ne.symm hk)]

/-- After the scan, the child gauge of the key of a valid line carries
that line's timestamp (as float64) provided no later line republishes the
same key. -/
theorem foldl_applyLine_lookup_last (l1 l2 : List String) (line : String)
    (r : ArpRecord) (hp : parseLine line = some r)
    (h2 : ∀ l ∈ l2, lineHasKey (recKey r) l = false) (acc : GaugeVec × Nat) :
    gLookup ((l1 ++ line :: l2).foldl applyLine acc).1 (recKey r)
      = some (float64OfInt r.timestamp) := by
  rw [List.foldl_append, List.foldl_cons,
    foldl_applyLine_lookup_of_noKey (recKey r) l2 h2]
  simp [applyLine, hp, gLookup_gaugeSet_self]

/-- Timestamps of magnitude at most `2 ^ 53` convert to float64 exactly. -/
theorem float64OfInt_exact (n : Int) (h : n.natAbs ≤ 2 ^ 53) :
    float64OfInt n = n := by
  unfold float64OfInt
  rw [if_pos h]

/-- Empty lines and comment lines never produce a record. -/
theorem parseLine_of_commentOrEmpty (line : String)
    (h : isCommentOrEmpty line = true) : parseLine line = none := by
  simp [parseLine, h]

/-- A line whose field split has the shape of a valid record parses into
exactly that record. -/
theorem parseLine_of_valid (line mac ip tstr : String) (rest : List String)
    (ts : Int) (hne : isCommentOrEmpty line = false)
    (hf : fields line = mac :: ip :: tstr :: rest)
    (hts : parseInt64 tstr = some ts) :
    parseLine line = some ⟨mac, ip, ts, rest.headD ""⟩ := by
  simp [parseLine, hne, hf, hts]

/-- A line with fewer than 3 fields, or an unparseable third field, never
produces a record. -/
theorem parseLine_of_invalid (line : String)
    (h : (fields line).length < 3
      ∨ ∃ mac ip tstr rest, fields line = mac :: ip :: tstr :: rest
          ∧ parseInt64 tstr = none) :
    parseLine line = none := by
  by_cases hc : isCommentOrEmpty line
  · simp [parseLine, hc]
  · rcases h with h | ⟨mac, ip, tstr, rest, hf, hts⟩
    · match hf : fields line with
      | [] => simp [parseLine, hc, hf]
      | [a] => simp [parseLine, hc, hf]
      | [a, b] => simp [parseLine, hc, hf]
      | a :: b :: c :: rest => rw [hf] at h; simp at h; omega
    · simp [parseLine, hc, hf, hts]

/-- Shared helper: after a fully successful cycle the devices-tracked
gauge stores the count of valid lines (exactly, as long as that count is
float64-exact, which every physically possible file satisfies). -/
theorem devicesTracked_eq_countValid (lines : List String) (now : Int)
    (s : MetricsState) (h : countValid lines ≤ 2 ^ 53) :
    (readArpwatchData (.scanned lines false) now s).devicesTracked
      = (countValid lines : Int) := by
  show float64OfInt ((lines.foldl applyLine ([], 0)).2 : Int) = _
  have hc : (lines.foldl applyLine (([] : GaugeVec), 0)).2 = countValid lines := by
    simpa using foldl_applyLine_count lines ([], 0)
  rw [hc]
  exact float64OfInt_exact _ (by simpa using h)

/-- C2 (amended): a valid line -- non-empty, not a comment, at least 3
whitespace-separated fields, parseable int64 third field -- publishes the
series keyed by (field 1, field 2, field 4 or ""), and when no later line
of the file publishes under the same key its value is the float64
conversion of the field-3 timestamp, which is the exact timestamp
whenever its magnitude is at most `2 ^ 53`. -/
theorem valid_line_published (l1 l2 : List String) (now : Int) (s : MetricsState)
    (line mac ip tstr : String) (rest : List String) (ts : Int)
    (hne : isCommentOrEmpty line = false)
    (hf : fields line = mac :: ip :: tstr :: rest)
    (hts : parseInt64 tstr = some ts)
    (hlast : ∀ l ∈ l2, lineHasKey (mac, ip, rest.headD "") l = false) :
    gLookup (readArpwatchData (.scanned (l1 ++ line :: l2) false) now s).lastSeen
        (mac, ip, rest.headD "")
      = some (float64OfInt ts)
    ∧ (ts.natAbs ≤ 2 ^ 53 → float64OfInt ts = ts) := by
  have hp := parseLine_of_valid line mac ip tstr rest ts hne hf hts
  refine ⟨?_, fun h => float64OfInt_exact ts h⟩
  exact foldl_applyLine_lookup_last l1 l2 line ⟨mac, ip, ts, rest.headD ""⟩ hp hlast ([], 0)

/-- C2 counterexample, in two parts.  First, the valid line
"aa bb 9007199254740993" (timestamp 2 ^ 53 + 1, which parses as an
int64) is published with gauge value 9007199254740992, not the exact
integer from field 3.  Second, in the file ["aa bb 5", "aa bb 9"] the
valid line "aa bb 5" does not leave the value 5 in its series: the later
line with the same (mac, ip, hostname) key overwrites it with 9. -/
theorem valid_line_published_counterexample :
    (gLookup (readArpwatchData (.scanned ["aa bb 9007199254740993"] false) 0
        initialState).lastSeen ("aa", "bb", "")
      = some 9007199254740992
     ∧ some (9007199254740992 : Int) ≠ some (9007199254740993 : Int))
    ∧ (gLookup (readArpwatchData (.scanned ["aa bb 5", "aa bb 9"] false) 0
        initialState).lastSeen ("aa", "bb", "")
      = some 9
     ∧ some (9 : Int) ≠ some (5 : Int)) := by
  decide

/-- Witness for the amended C2 at the one-line file "aa bb 77 hosty". -/
theorem valid_line_published_witness :
    gLookup (readArpwatchData (.scanned ["aa bb 77 hosty"] false) 0
        initialState).lastSeen ("aa", "bb", "hosty")
      = some 77 := by
  have h := valid_line_published [] [] 0 initialState "aa bb 77 hosty"
    "aa" "bb" "77" ["hosty"] 77 (by decide) (by decide) (by decide) (by simp)
  have h1 := h.1
  rw [h.2 (by decide)] at h1
  exact h1

/-- C3: a line with fewer than 3 fields, or with an unparseable third
field, produces no record; the refresh behaves exactly as if the line
were absent (so subsequent lines are still processed), and the read-error
counter is untouched by the cycle. -/
theorem invalid_line_skipped (l1 l2 : List String) (now : Int) (s : MetricsState)
    (line : String)
    (hbad : (fields line).length < 3
      ∨ ∃ mac ip tstr rest, fields line = mac :: ip :: tstr :: rest
          ∧ parseInt64 tstr = none) :
    parseLine line = none
    ∧ readArpwatchData (.scanned (l1 ++ line :: l2) false) now s
        = readArpwatchData (.scanned (l1 ++ l2) false) now s
    ∧ (readArpwatchData (.scanned (l1 ++ line :: l2) false) now s).readErrors
        = s.readErrors := by
  have hp := parseLine_of_invalid line hbad
  have hfold : ∀ acc : GaugeVec × Nat,
      (l1 ++ line :: l2).foldl applyLine acc = (l1 ++ l2).foldl applyLine acc := by
    intro acc
    rw [List.foldl_append, List.foldl_append, List.foldl_cons]
    simp [applyLine, hp]
  refine ⟨hp, ?_, rfl⟩
  simp [readArpwatchData, hfold]

/-- Witness for C3: inserting "bad-line" between two valid lines changes
nothing. -/
theorem invalid_line_skipped_witness :
    parseLine "bad-line" = none
    ∧ readArpwatchData (.scanned ["aa bb 5", "bad-line", "cc dd 6"] false) 0 initialState
        = readArpwatchData (.scanned ["aa bb 5", "cc dd 6"] false) 0 initialState := by
  have h := invalid_line_skipped ["aa bb 5"] ["cc dd 6"] 0 initialState "bad-line"
    (Or.inl (by decide))
  exact ⟨h.1, h.2.1⟩

/-- C4: after a fully successful refresh the snapshot holds a series for
key `k` exactly when some line of the current file publishes under `k`
(independently of the pre-refresh state, so stale keys are absent: full
replace, not merge), and empty lines and comment lines contribute no
series. -/
theorem snapshot_full_replace (lines : List String) (now : Int) (s : MetricsState)
    (k : LabelKey) :
    (gLookup (readArpwatchData (.scanned lines false) now s).lastSeen k).isSome
      = lines.any (lineHasKey k)
    ∧ ∀ line : String, isCommentOrEmpty line = true → parseLine line = none := by
  refine ⟨?_, fun line h => parseLine_of_commentOrEmpty line h⟩
  show (gLookup (lines.foldl applyLine ([], 0)).1 k).isSome = _
  rw [foldl_applyLine_lookup_isSome]
  simp [gLookup]

/-- Witness for C4 on a concrete three-line file. -/
theorem snapshot_full_replace_witness :
    (gLookup (readArpwatchData (.scanned ["a b 5", "# c", ""] false) 3
        initialState).lastSeen ("a", "b", "")).isSome = true
    ∧ parseLine "# c" = none := by
  have h := snapshot_full_replace ["a b 5", "# c", ""] 3 initialState ("a", "b", "")
  exact ⟨by rw [h.1]; decide, h.2 "# c" (by decide)⟩

/-- C6: a fully successful cycle sets the devices-tracked gauge to the
exact number of valid lines of the file just parsed and the
last-read-timestamp gauge to the cycle's wall-clock time (exactly, under
the float64-exactness bounds that every real execution satisfies). -/
theorem success_updates_summary (lines : List String) (now : Int) (s : MetricsState)
    (h1 : countValid lines ≤ 2 ^ 53) (h2 : now.natAbs ≤ 2 ^ 53) :
    (readArpwatchData (.scanned lines false) now s).devicesTracked
      = (countValid lines : Int)
    ∧ (readArpwatchData (.scanned lines false) now s).lastReadTime = now := by
  refine ⟨devicesTracked_eq_countValid lines now s h1, ?_⟩
  show float64OfInt now = now
  exact float64OfInt_exact now h2

/-- Witness for C6 on a file with one valid, one comment and one
malformed line. -/
theorem success_updates_summary_witness :
    (readArpwatchData (.scanned ["aa bb 5", "# x", "bad"] false) 1700000000
        initialState).devicesTracked = 1
    ∧ (readArpwatchData (.scanned ["aa bb 5", "# x", "bad"] false) 1700000000
        initialState).lastReadTime = 1700000000 := by
  have h := success_updates_summary ["aa bb 5", "# x", "bad"] 1700000000 initialState
    (by decide) (by decide)
  exact ⟨by rw [h.1]; decide, h.2⟩

/-- `constantTimeCompare` returns 1 exactly on equal strings. -/
theorem constantTimeCompare_eq_one (a b : String) :
    constantTimeCompare a b = 1 ↔ a = b := by
  by_cases hab : a = b <;> simp [constantTimeCompare, hab]

/-- C7: with both credentials configured non-empty, a request with no
Basic-Auth header or with non-matching credentials is rejected with
status 401 and the header WWW-Authenticate: Basic realm="Arpwatch
Exporter", while matching credentials reach the wrapped handler; with
either credential empty, every request passes through.  The gate wraps
both the metrics path and the root path with the same middleware. -/
theorem basicAuth_gate (cfg : AuthConfig) :
    (cfg.username ≠ "" → cfg.password ≠ "" →
      (basicAuth cfg none = .reject 401 "Basic realm=\"Arpwatch Exporter\""
       ∧ (∀ u p : String, u ≠ cfg.username ∨ p ≠ cfg.password →
           basicAuth cfg (some (u, p))
             = .reject 401 "Basic realm=\"Arpwatch Exporter\"")
       ∧ basicAuth cfg (some (cfg.username, cfg.password)) = .pass))
    ∧ ((cfg.username = "" ∨ cfg.password = "") →
        ∀ creds : Option (String × String), basicAuth cfg creds = .pass) := by
  constructor
  · intro hu hp
    have hcond : ¬(cfg.username = "" ∨ cfg.password = "") := by
      rintro (h | h)
      · exact hu h
      · exact hp h
    refine ⟨?_, ?_, ?_⟩
    · unfold basicAuth
      rw [if_neg hcond]
      rfl
    · intro u p hup
      have hmatch : ¬(constantTimeCompare u cfg.username = 1
          ∧ constantTimeCompare p cfg.password = 1) := by
        rintro ⟨h1, h2⟩
        rw [constantTimeCompare_eq_one] at h1 h2
        rcases hup with h | h
        · exact h h1
        · exact h h2
      unfold basicAuth
      rw [if_neg hcond]
      show (if constantTimeCompare u cfg.username = 1
              ∧ constantTimeCompare p cfg.password = 1
            then AuthDecision.pass else unauthorizedResponse) = _
      rw [if_neg hmatch]
      rfl
    · unfold basicAuth
      rw [if_neg hcond]
      show (if constantTimeCompare cfg.username cfg.username = 1
              ∧ constantTimeCompare cfg.password cfg.password = 1
            then AuthDecision.pass else unauthorizedResponse) = _
      rw [if_pos ⟨(constantTimeCompare_eq_one _ _).mpr rfl,
        (constantTimeCompare_eq_one _ _).mpr rfl⟩]
  · intro h creds
    unfold basicAuth
    rw [if_pos h]

/-- Witness for C7 with username "admin" and password "secret", and with
the gate disabled through an empty username. -/
theorem basicAuth_gate_witness :
    basicAuth ⟨"admin", "secret"⟩ none
      = .reject 401 "Basic realm=\"Arpwatch Exporter\""
    ∧ basicAuth ⟨"admin", "secret"⟩ (some ("admin", "wrong"))
      = .reject 401 "Basic realm=\"Arpwatch Exporter\""
    ∧ basicAuth ⟨"admin", "secret"⟩ (some ("admin", "secret")) = .pass
    ∧ basicAuth ⟨"", "secret"⟩ (some ("anyone", "anything")) = .pass := by
  have h := basicAuth_gate ⟨"admin", "secret"⟩
  have hd := h.1 (by decide) (by decide)
  have h0 := (basicAuth_gate ⟨"", "secret"⟩).2 (Or.inl rfl) (some ("anyone", "anything"))
  exact ⟨hd.1, hd.2.1 "admin" "wrong" (Or.inr (by decide)), hd.2.2, h0⟩

/-- C9: the published per-device value is the float64 conversion of the
parsed int64 timestamp: the conversion is exact up to magnitude `2 ^ 53`,
the last valid line for a key publishes exactly `float64OfInt` of its
timestamp, and the concrete timestamp 9007199254740993 = 2 ^ 53 + 1 is
published as 9007199254740992, differing from the parsed integer. -/
theorem published_value_is_float64 :
    (∀ ts : Int, ts.natAbs ≤ 2 ^ 53 → float64OfInt ts = ts)
    ∧ (∀ (l1 l2 : List String) (now : Int) (s : MetricsState) (line : String)
        (r : ArpRecord), parseLine line = some r →
        (∀ l ∈ l2, lineHasKey (recKey r) l = false) →
        gLookup (readArpwatchData (.scanned (l1 ++ line :: l2) false) now s).lastSeen
            (recKey r)
          = some (float64OfInt r.timestamp))
    ∧ gLookup (readArpwatchData (.scanned ["aa bb 9007199254740993"] false) 0
          initialState).lastSeen ("aa", "bb", "")
        = some (float64OfInt 9007199254740993)
    ∧ float64OfInt 9007199254740993 = 9007199254740992
    ∧ (9007199254740992 : Int) ≠ 9007199254740993 := by
  refine ⟨float64OfInt_exact, ?_, by decide, by decide, by decide⟩
  intro l1 l2 now s line r hp h2
  exact foldl_applyLine_lookup_last l1 l2 line r hp h2 ([], 0)

/-- Witness for C9 at timestamp 5 in a one-line file. -/
theorem published_value_is_float64_witness :
    float64OfInt 5 = 5
    ∧ gLookup (readArpwatchData (.scanned ["aa bb 5"] false) 0
        initialState).lastSeen ("aa", "bb", "")
      = some (float64OfInt 5) := by
  have h := published_value_is_float64
  refine ⟨h.1 5 (by decide), ?_⟩
  exact h.2.1 [] [] 0 initialState "aa bb 5" ⟨"aa", "bb", 5, ""⟩ (by decide) (by simp)

/-- C10: when several valid lines share a (mac, ip, hostname) key, the
published series carries the last such line's timestamp while every
valid line still increments the device count, so the devices-tracked
gauge can strictly exceed the number of published series; witnessed
concretely by the file ["aa bb 5", "aa bb 9"], which publishes one
series of value 9 but reports 2 devices tracked. -/
theorem duplicate_keys_counted (l1 l2 : List String) (now : Int) (s : MetricsState)
    (line : String) (r : ArpRecord) (hp : parseLine line = some r)
    (hlast : ∀ l ∈ l2, lineHasKey (recKey r) l = false)
    (hle : countValid (l1 ++ line :: l2) ≤ 2 ^ 53) :
    (gLookup (readArpwatchData (.scanned (l1 ++ line :: l2) false) now s).lastSeen
        (recKey r)
      = some (float64OfInt r.timestamp)
     ∧ (readArpwatchData (.scanned (l1 ++ line :: l2) false) now s).devicesTracked
        = (countValid (l1 ++ line :: l2) : Int))
    ∧ (gLookup (readArpwatchData (.scanned ["aa bb 5", "aa bb 9"] false) 0
          initialState).lastSeen ("aa", "bb", "") = some 9
       ∧ (readArpwatchData (.scanned ["aa bb 5", "aa bb 9"] false) 0
           initialState).devicesTracked = 2
       ∧ (readArpwatchData (.scanned ["aa bb 5", "aa bb 9"] false) 0
           initialState).lastSeen.length = 1
       ∧ (1 : Int) < 2) := by
  refine ⟨⟨?_, devicesTracked_eq_countValid _ now s hle⟩,
    by decide, by decide, by decide, by decide⟩
  exact foldl_applyLine_lookup_last l1 l2 line r hp hlast ([], 0)

/-- Witness for C10: the duplicate-key file ["aa bb 5", "aa bb 9"]. -/
theorem duplicate_keys_counted_witness :
    gLookup (readArpwatchData (.scanned ["aa bb 5", "aa bb 9"] false) 0
        initialState).lastSeen ("aa", "bb", "")
      = some (float64OfInt 9)
    ∧ (readArpwatchData (.scanned ["aa bb 5", "aa bb 9"] false) 0
        initialState).devicesTracked = 2 := by
  have h := duplicate_keys_counted ["aa bb 5"] [] 0 initialState "aa bb 9"
    ⟨"aa", "bb", 9, ""⟩ (by decide) (by simp) (by decide)
  exact ⟨h.1.1, h.1.2.trans (by decide)⟩
